/-
Verification of the mcserver wire-protocol core (src/libmc/src/proto.rs and
src/libmc/src/nbt.rs) against its natural-language specification.

Modelling conventions, used uniformly below:
* A byte stream is a `List Nat` of byte values (each < 256); reading from the
  abstract reader consumes a front segment of the list, and a short read
  (read_exact failing) is modelled as `none`.
* Machine integers are modelled as `Int` (for Rust signed values) or `Nat`
  (for unsigned values and for raw two's-complement bit patterns), with
  wrap-around made explicit through `% 2^w` where the Rust code can wrap.
* A Rust panic (failed `assert!`, `unwrap`, `panic!`, `todo!`, or a debug
  arithmetic-overflow check) is modelled as `none` / a dedicated error
  constructor: the function does not produce a value.
* Rust `String` values are modelled by their UTF-8 byte lists (`List Nat`);
  `String::from_utf8(..).unwrap()` is modelled by an executable UTF-8
  validity check.
-/
import Mathlib

namespace MCProto

/-! ## Integer reinterpretation helpers -/

/-- Reinterpretation of an i64 value as u64, i.e. the two's-complement bit
pattern, as in `u64::from_ne_bytes(int.to_ne_bytes())` (proto.rs line 581). -/
def toU64 (x : Int) : Nat := (x % 18446744073709551616).toNat

/-- Reinterpretation of a u64 bit pattern as a signed i64 value. -/
def ofU64 (n : Nat) : Int :=
  if n < 9223372036854775808 then (n : Int) else (n : Int) - 18446744073709551616

/-- Low 8 bits of a signed value: the byte emitted by `to_be_bytes` for an
i8, and generally the two's-complement byte encoding of a signed byte. -/
def toU8 (x : Int) : Nat := (x % 256).toNat

/-- Big-endian byte list of the low `8*w` bits of `n` (`to_be_bytes` on a
`w`-byte unsigned bit pattern). -/
def beBytes : Nat → Nat → List Nat
  | 0, _ => []
  | w + 1, n => ((n >>> (8 * w)) % 256) :: beBytes w n

/-! ## VarInt codec (proto.rs lines 461-496 and 579-592) -/

/-- Outcome of the `read_varint_with_nread` loop.  `nread` counts the bytes
consumed from the stream, as the Rust local of the same name does.
`eof` is a failed `read_exact`; `overflowPanic` is the debug-build panic of
`((cur & 0x7f) as i64) << shift` when `shift` has reached 64 or more
(after 10 continuation bytes the shift of the 11th byte is 70). -/
inductive VarIntRead where
  | ok (ret : Nat) (nread : Nat) (rest : List Nat)
  | eof (nread : Nat)
  | overflowPanic (nread : Nat)
deriving DecidableEq

/-- The loop of `read_varint_with_nread` (proto.rs lines 467-485).
`ret` is the u64 bit pattern accumulated so far (`ret |= ((cur & 0x7f) as
i64) << shift`), `shift` the current shift, and the loop ends when a byte
has its MSB clear. -/
def read_varint_loop : List Nat → Nat → Nat → Nat → VarIntRead
  | [], _, _, nread => .eof nread
  | b :: rest, ret, shift, nread =>
    if 64 ≤ shift then .overflowPanic (nread + 1)
    else
      let ret' := ret ||| (((b &&& 127) <<< shift) % 18446744073709551616)
      if b &&& 128 = 0 then .ok ret' (nread + 1) rest
      else read_varint_loop rest ret' (shift + 7) (nread + 1)

/-- Entry point `read_varint_with_nread`: returns the decoded i64, the number
of bytes read, and the remaining stream. -/
def read_varint_with_nread (input : List Nat) : Option (Int × Nat × List Nat) :=
  match read_varint_loop input 0 0 0 with
  | .ok ret nread rest => some (ofU64 ret, nread, rest)
  | _ => none

/-- The `read_varint` wrapper (proto.rs line 461), dropping the byte count. -/
def read_varint_i (input : List Nat) : Option (Int × List Nat) :=
  (read_varint_with_nread input).map fun (v, _, rest) => (v, rest)

/-- The loop of `write_varint` (proto.rs lines 579-592) on the u64
reinterpretation: while bits above the low 7 remain, emit `low7 | 0x80` and
shift right by 7; finally emit `int & 0xFF`. -/
def write_varint_loop (n : Nat) : List Nat :=
  if h : n &&& 18446744073709551488 = 0 then [n &&& 255]
  else ((n &&& 127) ||| 128) :: write_varint_loop (n >>> 7)
termination_by n
decreasing_by
  have hn : n ≠ 0 := by
    intro h0
    subst h0
    simp at h
  have : n >>> 7 = n / 128 := Nat.shiftRight_eq_div_pow n 7
  omega

/-- The `write_varint` entry point: reinterpret the i64 as u64 and run the
emit loop. -/
def write_varint (x : Int) : List Nat := write_varint_loop (toU64 x)

/-! ### VarInt helper lemmas -/

theorem and_two_pow_eq_zero_of_lt {a : Nat} {i : Nat} (h : a < 2 ^ i) :
    a &&& 2 ^ i = 0 := by
  apply Nat.eq_of_testBit_eq
  intro j
  simp only [Nat.testBit_and, Nat.zero_testBit]
  rcases Decidable.em (j = i) with rfl | hne
  · simp [Nat.testBit_lt_two_pow h]
  · simp [Nat.testBit_two_pow_of_ne (fun hh => hne hh.symm)]

/-- The mask `!0x7F` on u64 is `2^64 - 2^7`; `n & !0x7F == 0` holds when
`n < 128`. -/
theorem and_highmask_eq_zero_of_lt {n : Nat} (h : n < 128) :
    n &&& 18446744073709551488 = 0 := by
  apply Nat.eq_of_testBit_eq
  intro j
  simp only [Nat.testBit_and, Nat.zero_testBit]
  have hmask : (18446744073709551488 : Nat) = 2 ^ 7 * (2 ^ 57 - 1) := by norm_num
  rcases Nat.lt_or_ge j 7 with hj | hj
  · rw [hmask, Nat.testBit_mul_pow_two]
    simp [Nat.not_le.mpr hj]
  · have h7 : n < 2 ^ 7 := by omega
    have : n < 2 ^ j := lt_of_lt_of_le h7 (Nat.pow_le_pow_right (by norm_num) hj)
    simp [Nat.testBit_lt_two_pow this]

/-- Conversely, a u64 value passing the `n & !0x7F == 0` test is below 128. -/
theorem lt_128_of_and_highmask_eq_zero {n : Nat} (h64 : n < 18446744073709551616)
    (h : n &&& 18446744073709551488 = 0) : n < 128 := by
  have h128 : (128 : Nat) = 2 ^ 7 := by norm_num
  rw [h128]
  apply Nat.lt_pow_two_of_testBit
  intro i hi
  rcases Nat.lt_or_ge i 64 with hlt | hge
  · by_contra hbit
    have hb : n.testBit i = true := by
      cases hh : n.testBit i
      · exact absurd hh hbit
      · rfl
    have hm : (18446744073709551488 : Nat).testBit i = true := by
      have hmask : (18446744073709551488 : Nat) = 2 ^ 7 * (2 ^ 57 - 1) := by norm_num
      rw [hmask, Nat.testBit_mul_pow_two]
      simp only [Nat.testBit_two_pow_sub_one]
      have : i - 7 < 57 := by omega
      simp [hi, this]
    have := congrArg (fun m => m.testBit i) h
    simp only [Nat.testBit_and, Nat.zero_testBit, hb, hm] at this
    exact Bool.noConfusion this
  · have : n < 2 ^ i := by
      calc n < 18446744073709551616 := h64
        _ = 2 ^ 64 := by norm_num
        _ ≤ 2 ^ i := Nat.pow_le_pow_right (by norm_num) hge
    exact Nat.testBit_lt_two_pow this

theorem write_varint_loop_small {n : Nat} (h : n < 128) :
    write_varint_loop n = [n] := by
  rw [write_varint_loop]
  have h255 : n &&& 255 = n := by
    have : (255 : Nat) = 2 ^ 8 - 1 := by norm_num
    rw [this, Nat.and_pow_two_sub_one_eq_mod]
    omega
  simp [and_highmask_eq_zero_of_lt h, h255]

theorem write_varint_loop_big {n : Nat} (h64 : n < 18446744073709551616)
    (h : 128 ≤ n) :
    write_varint_loop n = ((n % 128) ||| 128) :: write_varint_loop (n >>> 7) := by
  rw [write_varint_loop]
  have hguard : ¬ (n &&& 18446744073709551488 = 0) := by
    intro hz
    exact absurd (lt_128_of_and_highmask_eq_zero h64 hz) (by omega)
  have h127 : n &&& 127 = n % 128 := by
    have : (127 : Nat) = 2 ^ 7 - 1 := by norm_num
    rw [this, Nat.and_pow_two_sub_one_eq_mod]
  rw [dif_neg hguard, h127]

theorem write_varint_loop_length {k : Nat} : ∀ {n : Nat},
    n < 18446744073709551616 → n < 2 ^ (7 * k + 7) →
    (write_varint_loop n).length ≤ k + 1 := by
  induction k with
  | zero =>
    intro n h64 hk
    have : n < 128 := by
      have : (2 : Nat) ^ (7 * 0 + 7) = 128 := by norm_num
      omega
    rw [write_varint_loop_small this]
    simp
  | succ k ih =>
    intro n h64 hk
    rcases Nat.lt_or_ge n 128 with h | h
    · rw [write_varint_loop_small h]
      simp
    · rw [write_varint_loop_big h64 h]
      have hdiv : n >>> 7 = n / 128 := Nat.shiftRight_eq_div_pow n 7
      have h1 : n >>> 7 < 18446744073709551616 := by omega
      have h2 : n >>> 7 < 2 ^ (7 * k + 7) := by
        rw [hdiv]
        apply Nat.div_lt_of_lt_mul
        calc n < 2 ^ (7 * (k + 1) + 7) := hk
          _ = 128 * 2 ^ (7 * k + 7) := by ring
      have := ih h1 h2
      simpa using Nat.succ_le_succ this

theorem lor_shift_eq_add {s acc m : Nat} (hacc : acc < 2 ^ s) :
    acc ||| m * 2 ^ s = acc + m * 2 ^ s := by
  have h := Nat.mul_add_lt_is_or hacc m
  calc acc ||| m * 2 ^ s = 2 ^ s * m ||| acc := by rw [Nat.or_comm, Nat.mul_comm]
    _ = 2 ^ s * m + acc := h.symm
    _ = acc + m * 2 ^ s := by ring

theorem shiftLeft_mod_eq {m s : Nat} (h : m * 2 ^ s < 18446744073709551616) :
    (m <<< s) % 18446744073709551616 = m * 2 ^ s := by
  rw [Nat.shiftLeft_eq]
  exact Nat.mod_eq_of_lt h

/-- Decoding the emitted byte list of `write_varint_loop` from any loop state
recovers the value: the central round-trip invariant. -/
theorem read_write_varint_loop : ∀ (n shift acc nread : Nat) (rest : List Nat),
    n < 2 ^ (64 - shift) → shift ≤ 63 → acc < 2 ^ shift →
    read_varint_loop (write_varint_loop n ++ rest) acc shift nread
      = .ok (acc + n * 2 ^ shift) (nread + (write_varint_loop n).length) rest := by
  intro n
  induction n using Nat.strong_induction_on with
  | _ n ih =>
    intro shift acc nread rest hbound hshift hacc
    have h64 : n < 18446744073709551616 := by
      have : (2 : Nat) ^ (64 - shift) ≤ 2 ^ 64 :=
        Nat.pow_le_pow_right (by norm_num) (by omega)
      have h2 : (2 : Nat) ^ 64 = 18446744073709551616 := by norm_num
      omega
    have hpow : (2 : Nat) ^ (64 - shift) * 2 ^ shift = 18446744073709551616 := by
      rw [← pow_add]
      have : 64 - shift + shift = 64 := by omega
      rw [this]
      norm_num
    rcases Nat.lt_or_ge n 128 with hsmall | hbig
    · rw [write_varint_loop_small hsmall, List.cons_append, List.nil_append]
      rw [read_varint_loop]
      rw [if_neg (by omega : ¬ 64 ≤ shift)]
      have hcont : n &&& 128 = 0 := by
        have h128 : (128 : Nat) = 2 ^ 7 := by norm_num
        rw [h128]
        exact and_two_pow_eq_zero_of_lt (by omega)
      have h127 : n &&& 127 = n := by
        have : (127 : Nat) = 2 ^ 7 - 1 := by norm_num
        rw [this, Nat.and_pow_two_sub_one_eq_mod]
        omega
      have hmul : n * 2 ^ shift < 18446744073709551616 := by
        calc n * 2 ^ shift < 2 ^ (64 - shift) * 2 ^ shift :=
              mul_lt_mul_of_pos_right hbound (Nat.pos_pow_of_pos shift (by norm_num))
          _ = 18446744073709551616 := hpow
      simp only [h127, hcont, shiftLeft_mod_eq hmul,
        lor_shift_eq_add hacc, List.length_cons, List.length_nil]
      simp
    · have hshift56 : shift ≤ 56 := by
        by_contra hgt
        have : 64 - shift ≤ 7 := by omega
        have : (2 : Nat) ^ (64 - shift) ≤ 2 ^ 7 :=
          Nat.pow_le_pow_right (by norm_num) this
        have h7 : (2 : Nat) ^ 7 = 128 := by norm_num
        omega
      rw [write_varint_loop_big h64 hbig, List.cons_append]
      rw [read_varint_loop]
      rw [if_neg (by omega : ¬ 64 ≤ shift)]
      have hmod127 : (n % 128 ||| 128) &&& 127 = n % 128 := by
        rw [Nat.and_distrib_right]
        have e1 : (128 : Nat) &&& 127 = 0 := by decide
        have e2 : n % 128 &&& 127 = n % 128 := by
          have : (127 : Nat) = 2 ^ 7 - 1 := by norm_num
          rw [this, Nat.and_pow_two_sub_one_eq_mod]
          omega
        rw [e1, e2, Nat.or_zero]
      have hmod128 : (n % 128 ||| 128) &&& 128 = 128 := by
        rw [Nat.and_distrib_right]
        have e1 : (128 : Nat) &&& 128 = 128 := Nat.and_self 128
        have e2 : n % 128 &&& 128 = 0 := by
          have : (128 : Nat) = 2 ^ 7 := by norm_num
          rw [this]
          exact and_two_pow_eq_zero_of_lt (by omega)
        rw [e1, e2, Nat.zero_or]
      have hmul : n % 128 * 2 ^ shift < 18446744073709551616 := by
        have h1 : n % 128 * 2 ^ shift < 128 * 2 ^ 56 := by
          apply Nat.mul_lt_mul_of_lt_of_le (by omega)
          · exact Nat.pow_le_pow_right (by norm_num) hshift56
          · exact Nat.pos_pow_of_pos 56 (by norm_num)
        have : (128 : Nat) * 2 ^ 56 = 9223372036854775808 := by norm_num
        omega
      simp only [hmod127, hmod128, shiftLeft_mod_eq hmul, lor_shift_eq_add hacc]
      rw [if_neg (by norm_num : ¬ (128 : Nat) = 0)]
      have hdiv : n >>> 7 = n / 128 := Nat.shiftRight_eq_div_pow n 7
      have hrec := ih (n >>> 7) (by rw [hdiv]; omega) (shift + 7)
        (acc + n % 128 * 2 ^ shift) (nread + 1) rest
      have hb1 : n >>> 7 < 2 ^ (64 - (shift + 7)) := by
        rw [hdiv]
        have hx : (2 : Nat) ^ (64 - shift) = 2 ^ (64 - (shift + 7)) * 128 := by
          have h7 : (128 : Nat) = 2 ^ 7 := by norm_num
          rw [h7, ← pow_add]
          congr 1
          omega
        apply Nat.div_lt_of_lt_mul
        calc n < 2 ^ (64 - shift) := hbound
          _ = 2 ^ (64 - (shift + 7)) * 128 := hx
          _ = 128 * 2 ^ (64 - (shift + 7)) := by ring
      have hb2 : shift + 7 ≤ 63 := by omega
      have hb3 : acc + n % 128 * 2 ^ shift < 2 ^ (shift + 7) := by
        have hx : (2 : Nat) ^ (shift + 7) = 2 ^ shift * 128 := by
          rw [pow_add]
          norm_num
        have hr : n % 128 ≤ 127 := by omega
        have : n % 128 * 2 ^ shift ≤ 127 * 2 ^ shift :=
          Nat.mul_le_mul_right _ hr
        have hp : 0 < 2 ^ shift := Nat.pos_pow_of_pos shift (by norm_num)
        calc acc + n % 128 * 2 ^ shift < 2 ^ shift + 127 * 2 ^ shift := by omega
          _ = 2 ^ shift * 128 := by ring
          _ = 2 ^ (shift + 7) := hx.symm
      rw [hrec hb1 hb2 hb3]
      have hval : acc + n % 128 * 2 ^ shift + n >>> 7 * 2 ^ (shift + 7)
          = acc + n * 2 ^ shift := by
        have hsplit : n = 128 * (n / 128) + n % 128 := by omega
        have hx : (2 : Nat) ^ (shift + 7) = 2 ^ shift * 128 := by
          rw [pow_add]
          norm_num
        rw [hdiv, hx]
        calc acc + n % 128 * 2 ^ shift + n / 128 * (2 ^ shift * 128)
            = acc + (128 * (n / 128) + n % 128) * 2 ^ shift := by ring
          _ = acc + n * 2 ^ shift := by rw [← hsplit]
      rw [hval]
      simp only [List.length_cons]
      congr 1
      omega

/-- Reinterpreting i64 as u64 and back is the identity on i64 range. -/
theorem ofU64_toU64 {x : Int} (hlo : -9223372036854775808 ≤ x)
    (hhi : x < 9223372036854775808) : ofU64 (toU64 x) = x := by
  unfold ofU64 toU64
  split <;> omega

/-- Top-level VarInt round trip, shared by the frame-length development. -/
theorem read_write_varint (x : Int) (rest : List Nat)
    (hlo : -9223372036854775808 ≤ x) (hhi : x < 9223372036854775808) :
    read_varint_with_nread (write_varint x ++ rest)
      = some (x, (write_varint x).length, rest) := by
  have hn : toU64 x < 18446744073709551616 := by
    unfold toU64
    omega
  have hmain := read_write_varint_loop (toU64 x) 0 0 0 rest
    (by norm_num [hn]) (by norm_num) (by norm_num)
  unfold write_varint read_varint_with_nread
  rw [hmain]
  simp [ofU64_toU64 hlo hhi]

theorem write_varint_length_le (x : Int) : (write_varint x).length ≤ 10 := by
  have hn : toU64 x < 18446744073709551616 := by
    unfold toU64
    omega
  unfold write_varint
  apply write_varint_loop_length hn
  calc toU64 x < 18446744073709551616 := hn
    _ < 2 ^ (7 * 9 + 7) := by norm_num

/-- C1. VarInt round-trip: for every signed 64-bit integer x, decoding the
bytes produced by write_varint(x) with read_varint yields x again (consuming
exactly those bytes), and write_varint emits at most 10 bytes. -/
theorem C1_varint_round_trip (x : Int) (rest : List Nat)
    (hlo : -9223372036854775808 ≤ x) (hhi : x < 9223372036854775808) :
    read_varint_with_nread (write_varint x ++ rest)
      = some (x, (write_varint x).length, rest)
      ∧ (write_varint x).length ≤ 10 :=
  ⟨read_write_varint x rest hlo hhi, write_varint_length_le x⟩

theorem C1_varint_round_trip_witness :
    (read_varint_with_nread (write_varint (-1) ++ [])
      = some (-1, (write_varint (-1)).length, [])
      ∧ (write_varint (-1)).length ≤ 10) :=
  C1_varint_round_trip (-1) [] (by norm_num) (by norm_num)

/-! ### VarInt decode length (C6) -/

/-- In a successful run of the read loop at least one byte is read, and the
shift of the last byte stayed below 64. -/
theorem read_varint_loop_ok_shift : ∀ (input : List Nat) (acc shift nread ret n : Nat)
    (rest : List Nat),
    read_varint_loop input acc shift nread = .ok ret n rest →
    nread < n ∧ shift + 7 * (n - nread - 1) < 64 := by
  intro input
  induction input with
  | nil =>
    intro acc shift nread ret n rest h
    simp [read_varint_loop] at h
  | cons b tl ih =>
    intro acc shift nread ret n rest h
    rw [read_varint_loop] at h
    by_cases hs : 64 ≤ shift
    · rw [if_pos hs] at h
      exact absurd h (by simp)
    · rw [if_neg hs] at h
      simp only [] at h
      by_cases hb : b &&& 128 = 0
      · rw [if_pos hb] at h
        have hn : n = nread + 1 := (VarIntRead.ok.injEq _ _ _ _ _ _).mp h |>.2.1.symm
        omega
      · rw [if_neg hb] at h
        have := ih _ _ _ _ _ _ h
        omega

/-- Reading a stream whose first bytes all carry the continuation bit walks
past all of them, and panics at the first byte whose shift reaches 64. -/
theorem read_varint_loop_all_cont : ∀ (bs : List Nat) (b : Nat) (tail : List Nat)
    (acc shift nread : Nat),
    (∀ x ∈ bs, x &&& 128 ≠ 0) →
    shift + 7 * bs.length ≤ 70 → 64 ≤ shift + 7 * bs.length →
    read_varint_loop (bs ++ b :: tail) acc shift nread
      = .overflowPanic (nread + bs.length + 1) := by
  intro bs
  induction bs with
  | nil =>
    intro b tail acc shift nread _ hle hge
    simp only [List.length_nil, Nat.mul_zero, Nat.add_zero] at hle hge
    rw [List.nil_append, read_varint_loop, if_pos hge]
    simp
  | cons x bs ih =>
    intro b tail acc shift nread hcont hle hge
    have hx : x &&& 128 ≠ 0 := hcont x (List.mem_cons_self x bs)
    have hlen : (x :: bs).length = bs.length + 1 := rfl
    rw [List.cons_append, read_varint_loop]
    rw [if_neg (by simp only [hlen] at hle; omega : ¬ 64 ≤ shift)]
    simp only []
    rw [if_neg hx]
    rw [ih b tail _ (shift + 7) (nread + 1)
      (fun y hy => hcont y (List.mem_cons_of_mem x hy))
      (by simp only [hlen] at hle; omega)
      (by simp only [hlen] at hge hle; omega)]
    simp only [hlen]
    congr 1
    omega

/-- C6 counterexample: an input whose first 10 bytes all have the
continuation bit set is NOT rejected after 10 bytes; the decoder reads an
11th byte and only then fails (scheduled overflow panic), so 11 bytes are
consumed, contradicting the claimed 10-byte limit. -/
theorem C6_counterexample :
    read_varint_loop (List.replicate 10 128 ++ [0]) 0 0 0
      = .overflowPanic 11 := by decide

/-- C6 amended: a successful VarInt read consumes at most 10 bytes, but the
failure on over-long input happens only after the 11th byte is read: for any
10 continuation bytes followed by at least one more byte, the read consumes
11 bytes and aborts with the shift-overflow panic, rather than rejecting
after the first 10 bytes. -/
theorem C6_varint_decode_limit :
    (∀ (input : List Nat) (ret n : Nat) (rest : List Nat),
        read_varint_loop input 0 0 0 = .ok ret n rest → n ≤ 10) ∧
    (∀ (bs : List Nat) (b : Nat) (tail : List Nat), bs.length = 10 →
        (∀ x ∈ bs, x &&& 128 ≠ 0) →
        read_varint_loop (bs ++ b :: tail) 0 0 0 = .overflowPanic 11) := by
  constructor
  · intro input ret n rest h
    have := read_varint_loop_ok_shift input 0 0 0 ret n rest h
    omega
  · intro bs b tail hlen hcont
    have := read_varint_loop_all_cont bs b tail 0 0 0 hcont
      (by omega) (by omega)
    rw [this, hlen]

theorem C6_varint_decode_limit_witness :
    ((1 : Nat) ≤ 10) ∧
    read_varint_loop (List.replicate 10 128 ++ 0 :: []) 0 0 0
      = .overflowPanic 11 :=
  ⟨C6_varint_decode_limit.1 [5] 5 1 [] (by decide),
   C6_varint_decode_limit.2 (List.replicate 10 128) 0 [] (by decide)
     (by decide)⟩

/-! ## BitSet (proto.rs lines 89-122) -/

/-- The `BitSet` struct: a vector of i64 words, each modelled as its 64-bit
pattern. -/
structure BitSet where
  longs : List Nat
deriving DecidableEq

/-- `BitSet::with_num_bits`: `vec![0; n.div_ceil(64)]` (proto.rs line 96). -/
def BitSet.with_num_bits (n : Nat) : BitSet :=
  ⟨List.replicate ((n + 63) / 64) 0⟩

/-- `BitSet::compute_idx` (proto.rs lines 102-110).  The failed `assert!` on
an out-of-range bit index is modelled as `none`. -/
def BitSet.compute_idx (bs : BitSet) (bit_idx : Nat) : Option (Nat × Nat) :=
  if bit_idx < 64 * bs.longs.length then some (bit_idx / 64, bit_idx % 64)
  else none

/-- `BitSet::set` (proto.rs lines 112-115): `longs[long_idx] |= 1 << bit_idx`.
The index returned by `compute_idx` is in bounds, so `List.getD`/`List.set`
agree with Rust indexing. -/
def BitSet.set (bs : BitSet) (bit_idx : Nat) : Option BitSet :=
  (bs.compute_idx bit_idx).map fun (long_idx, bi) =>
    ⟨bs.longs.set long_idx (bs.longs.getD long_idx 0 ||| (1 <<< bi))⟩

/-- `BitSet::get` (proto.rs lines 117-121): `(longs[long_idx] & (1 << bit_idx)) != 0`. -/
def BitSet.get (bs : BitSet) (bit_idx : Nat) : Option Bool :=
  (bs.compute_idx bit_idx).map fun (long_idx, bi) =>
    decide (bs.longs.getD long_idx 0 &&& (1 <<< bi) ≠ 0)

theorem getD_replicate_zero : ∀ (k i : Nat), (List.replicate k (0 : Nat)).getD i 0 = 0 := by
  intro k
  induction k with
  | zero => intro i; simp [List.getD]
  | succ k ih =>
    intro i
    cases i with
    | zero => simp [List.replicate, List.getD]
    | succ i => simp [List.replicate, List.getD]

/-- C10. BitSet bounds behavior: with_num_bits n makes ceil(n/64) words, all
clear, so get j = false for every j below 64*ceil(n/64); any get or set at
an index at or beyond 64*(number of words) is the assertion panic (none),
never a silent answer. -/
theorem C10_bitset_bounds :
    (∀ n : Nat, (BitSet.with_num_bits n).longs = List.replicate ((n + 63) / 64) 0) ∧
    (∀ n j : Nat, j < 64 * ((n + 63) / 64) →
      (BitSet.with_num_bits n).get j = some false) ∧
    (∀ (bs : BitSet) (j : Nat), 64 * bs.longs.length ≤ j →
      bs.get j = none ∧ bs.set j = none) := by
  refine ⟨fun n => rfl, ?_, ?_⟩
  · intro n j h
    unfold BitSet.get BitSet.compute_idx BitSet.with_num_bits
    have hlen : (List.replicate ((n + 63) / 64) (0 : Nat)).length = (n + 63) / 64 :=
      List.length_replicate _ _
    rw [if_pos (by rw [hlen]; exact h)]
    simp [getD_replicate_zero]
  · intro bs j h
    unfold BitSet.get BitSet.set BitSet.compute_idx
    rw [if_neg (by omega)]
    exact ⟨rfl, rfl⟩

theorem C10_bitset_bounds_witness :
    (BitSet.with_num_bits 1).get 5 = some false ∧
    ((BitSet.mk [0]).get 64 = none ∧ (BitSet.mk [0]).set 64 = none) :=
  ⟨C10_bitset_bounds.2.1 1 5 (by norm_num),
   C10_bitset_bounds.2.2 ⟨[0]⟩ 64 (by norm_num)⟩

/-! ## Position encoding (proto.rs lines 644-663)

Rust `Position` has `x: i32`, `z: i32`, `y: i16`; the fields are modelled as
unconstrained `Int` (the claims quantify over sub-ranges of the Rust types). -/

structure Position where
  x : Int
  z : Int
  y : Int
deriving DecidableEq

/-- `write_position` (proto.rs lines 644-663).  Each coordinate is cast to
i64; `v & mask` on an i64 is `(toU64 v) &&& mask` (a non-negative value), so
the three `assert!(v == v & mask)` checks are the `if` condition below; when
they pass, the packed big-endian i64 is emitted. -/
def write_position (p : Position) : Option (List Nat) :=
  let xm : Nat := toU64 p.x &&& 67108863
  let zm : Nat := toU64 p.z &&& 67108863
  let ym : Nat := toU64 p.y &&& 4095
  if p.x = (xm : Int) ∧ p.z = (zm : Int) ∧ p.y = (ym : Int) then
    some (beBytes 8 ((xm <<< 38) ||| (zm <<< 12) ||| ym))
  else none

/-- C5. The spec intends write_position to accept every coordinate that fits
its signed field width (x,z signed 26 bits, y signed 12 bits), and the
assert message says `bigger than 26 bits`; but `assert!(x == x & 0x3FFFFFF)`
rejects every negative coordinate, so the in-range input x = -1 panics.  For
non-negative coordinates the claimed packing formula and the concrete
example (1,2,3) hold. -/
theorem C5_position_encoding :
    write_position ⟨-1, 0, 0⟩ = none ∧
    write_position ⟨1, 2, 3⟩
      = some (beBytes 8 ((1 <<< 38) ||| (2 <<< 12) ||| 3)) := by
  constructor
  · decide
  · decide

/-! ## Primitive reads (proto.rs lines 498-576) -/

/-- Models `read_exact` into a `k`-byte buffer: the next `k` bytes, or `none`
on a short read. -/
def readBytes (k : Nat) (input : List Nat) : Option (List Nat × List Nat) :=
  if k ≤ input.length then some (input.take k, input.drop k) else none

/-- `read_ushort`: big-endian u16. -/
def read_u16 : List Nat → Option (Nat × List Nat)
  | b1 :: b2 :: rest => some (b1 * 256 + b2, rest)
  | _ => none

/-- `read_byte`: i8 via from_be_bytes. -/
def read_i8 : List Nat → Option (Int × List Nat)
  | b :: rest => some (if b < 128 then (b : Int) else (b : Int) - 256, rest)
  | _ => none

/-- `read_ubyte`. -/
def read_u8 : List Nat → Option (Nat × List Nat)
  | b :: rest => some (b, rest)
  | _ => none

/-- `read_bool` (proto.rs lines 564-570): 0 is false, 1 is true, anything
else panics. -/
def read_bool : List Nat → Option (Bool × List Nat)
  | 0 :: rest => some (false, rest)
  | 1 :: rest => some (true, rest)
  | _ => none

/-- `read_uuid`: 16 big-endian bytes into a u128. -/
def read_uuid (input : List Nat) : Option (Nat × List Nat) :=
  (readBytes 16 input).map fun (bs, rest) => (bs.foldl (fun a b => a * 256 + b) 0, rest)

/-- Validity of a byte list as UTF-8 (what `String::from_utf8` accepts):
RFC 3629 sequences, rejecting overlong forms, surrogates and values above
U+10FFFF. -/
def utf8Valid : List Nat → Bool
  | [] => true
  | a :: rest =>
    if a < 128 then utf8Valid rest
    else if a < 194 then false
    else if a < 224 then
      match rest with
      | b :: rest2 => decide (128 ≤ b ∧ b ≤ 191) && utf8Valid rest2
      | [] => false
    else if a < 240 then
      match rest with
      | b :: c :: rest2 =>
        decide ((if a = 224 then 160 else 128) ≤ b
          ∧ b ≤ (if a = 237 then 159 else 191)
          ∧ 128 ≤ c ∧ c ≤ 191) && utf8Valid rest2
      | _ => false
    else if a < 245 then
      match rest with
      | b :: c :: d :: rest2 =>
        decide ((if a = 240 then 144 else 128) ≤ b
          ∧ b ≤ (if a = 244 then 143 else 191)
          ∧ 128 ≤ c ∧ c ≤ 191 ∧ 128 ≤ d ∧ d ≤ 191) && utf8Valid rest2
      | _ => false
    else false

/-- `read_ushort_string` (proto.rs lines 498-504): u16 length, then that many
bytes, validated as UTF-8. -/
def read_ushort_string (input : List Nat) : Option (List Nat × List Nat) := do
  let (len, r1) ← read_u16 input
  let (s, r2) ← readBytes len r1
  if utf8Valid s then some (s, r2) else none

/-- `read_varint_string_with_nread` (proto.rs lines 490-496): VarInt length
(panicking if negative when converted to usize), content bytes, UTF-8 check;
returns the string and `len + lennread` bytes consumed. -/
def read_varint_string_with_nread (input : List Nat) :
    Option (List Nat × Nat × List Nat) := do
  let (len, lennread, r1) ← read_varint_with_nread input
  if 0 ≤ len then
    let (s, r2) ← readBytes len.toNat r1
    if utf8Valid s then some (s, len.toNat + lennread, r2) else none
  else none

/-- `read_varint_string` (proto.rs line 512). -/
def read_varint_string (input : List Nat) : Option (List Nat × List Nat) :=
  (read_varint_string_with_nread input).map fun (s, _, rest) => (s, rest)

/-! ## Inbound packets and the connection state machine
(proto.rs lines 4-53, 189-301) -/

inductive ConnState where
  | handshaking
  | login
  | config
  | play
deriving DecidableEq

inductive HandshakeNextState where
  | status
  | login
deriving DecidableEq

inductive ChatMode where
  | enabled
  | commandsOnly
  | hidden
deriving DecidableEq

inductive MainHand where
  | left
  | right
deriving DecidableEq

inductive InPacket where
  | handshake (protocol_version : Int) (server_addr : List Nat)
      (server_port : Nat) (next_state : HandshakeNextState)
  | loginStart (name : List Nat) (player_uuid : Nat)
  | loginAck
  | pluginMessageConfig (channel : List Nat) (data : List Nat)
  | clientInfoConfig (locale : List Nat) (view_distance : Int)
      (chat_mode : ChatMode) (chat_colors : Bool) (displayed_skin_parts : Nat)
      (main_hand : MainHand) (enable_text_filtering : Bool)
      (allow_server_listings : Bool)
  | finishConfig
deriving DecidableEq

/-- The Handshake arm of `next_packet` (proto.rs lines 221-238); the
`panic!("bad next state")` on a value other than 1 or 2 is `none`. -/
def decode_handshake (input : List Nat) : Option (InPacket × List Nat) := do
  let (pv, r1) ← read_varint_i input
  let (addr, r2) ← read_varint_string r1
  let (port, r3) ← read_u16 r2
  let (nsv, r4) ← read_varint_i r3
  let ns ← match nsv with
    | 1 => some HandshakeNextState.status
    | 2 => some HandshakeNextState.login
    | _ => none
  some (.handshake pv addr port ns, r4)

/-- The Login Start arm (proto.rs lines 240-244). -/
def decode_login_start (input : List Nat) : Option (InPacket × List Nat) := do
  let (name, r1) ← read_varint_string input
  let (uuid, r2) ← read_uuid r1
  some (.loginStart name uuid, r2)

/-- The PluginMessageConfig arm (proto.rs lines 252-259):
`data_len = packet_tail_len - strlen`, panicking if negative, then exactly
`data_len` raw bytes. -/
def decode_plugin_message (packet_tail_len : Int) (input : List Nat) :
    Option (InPacket × List Nat) := do
  let (channel, strlen, r1) ← read_varint_string_with_nread input
  let data_len : Int := packet_tail_len - strlen
  if 0 ≤ data_len then
    let (data, r2) ← readBytes data_len.toNat r1
    some (.pluginMessageConfig channel data, r2)
  else none

/-- The ClientInfoConfig arm (proto.rs lines 261-289); bad chat mode or main
hand values panic. -/
def decode_client_info (input : List Nat) : Option (InPacket × List Nat) := do
  let (locale, r1) ← read_varint_string input
  let (vd, r2) ← read_i8 r1
  let (cmv, r3) ← read_varint_i r2
  let cm ← match cmv with
    | 0 => some ChatMode.enabled
    | 1 => some ChatMode.commandsOnly
    | 2 => some ChatMode.hidden
    | _ => none
  let (cc, r4) ← read_bool r3
  let (dsp, r5) ← read_u8 r4
  let (mhv, r6) ← read_varint_i r5
  let mh ← match mhv with
    | 0 => some MainHand.left
    | 1 => some MainHand.right
    | _ => none
  let (etf, r7) ← read_bool r6
  let (asl, r8) ← read_bool r7
  some (.clientInfoConfig locale vd cm cc dsp mh etf asl, r8)

/-- `PacketStream::next_packet` (proto.rs lines 214-301): VarInt frame
length, VarInt packet id, dispatch on (id, state).  Each arm is paired with
the state the arm leaves in `self.state`; the `_ => panic!` arm is `none`. -/
def next_packet (st : ConnState) (input : List Nat) :
    Option (InPacket × ConnState × List Nat) :=
  match read_varint_i input with
  | none => none
  | some (packet_len_field, r0) =>
    match read_varint_with_nread r0 with
    | none => none
    | some (packid, packidnread, r1) =>
      match packid, st with
      | 0, .handshaking => (decode_handshake r1).map fun (p, r) => (p, .login, r)
      | 0, .login => (decode_login_start r1).map fun (p, r) => (p, .login, r)
      | 3, .login => some (.loginAck, .config, r1)
      | 1, .config =>
          (decode_plugin_message (packet_len_field - packidnread) r1).map
            fun (p, r) => (p, .config, r)
      | 0, .config => (decode_client_info r1).map fun (p, r) => (p, .config, r)
      | 2, .config => some (.finishConfig, .play, r1)
      | _, _ => none

/-- Order of the protocol phases, for the no-backward-transition property. -/
def stateRank : ConnState → Nat
  | .handshaking => 0
  | .login => 1
  | .config => 2
  | .play => 3

/-- A successful decode in the Handshaking arm always yields a Handshake
packet. -/
theorem decode_handshake_shape {input : List Nat} {p : InPacket} {r : List Nat}
    (h : decode_handshake input = some (p, r)) :
    ∃ pv addr port ns, p = .handshake pv addr port ns := by
  simp only [decode_handshake, Option.bind_eq_bind, Option.bind_eq_some] at h
  obtain ⟨⟨pv, r1⟩, h1, h⟩ := h
  obtain ⟨⟨addr, r2⟩, h2, h⟩ := h
  obtain ⟨⟨port, r3⟩, h3, h⟩ := h
  obtain ⟨⟨nsv, r4⟩, h4, h⟩ := h
  split at h
  · simp only [Option.some_bind, Option.some.injEq, Prod.mk.injEq] at h
    exact ⟨pv, addr, port, .status, h.1.symm⟩
  · simp only [Option.some_bind, Option.some.injEq, Prod.mk.injEq] at h
    exact ⟨pv, addr, port, .login, h.1.symm⟩
  · exact absurd h (by simp)

/-- State effect of `next_packet`: every successful decode either keeps the
state or moves it forward along Handshaking, Login, Config, Play; the only
transitions are the Handshake, LoginAck and FinishConfig arms. -/
theorem next_packet_state_transitions :
    ∀ (st : ConnState) (input : List Nat) (p : InPacket) (st' : ConnState)
      (rest : List Nat),
    next_packet st input = some (p, st', rest) →
    stateRank st ≤ stateRank st'
    ∧ (st' = st
      ∨ (st = .handshaking ∧ st' = .login ∧ ∃ pv sa sp ns, p = .handshake pv sa sp ns)
      ∨ (st = .login ∧ st' = .config ∧ p = .loginAck)
      ∨ (st = .config ∧ st' = .play ∧ p = .finishConfig)) := by
  intro st input p st' rest h
  unfold next_packet at h
  split at h
  · exact absurd h (by simp)
  · split at h
    · exact absurd h (by simp)
    · split at h
      · -- Handshake
        rcases Option.map_eq_some'.mp h with ⟨⟨pkt, rr⟩, hdec, heq⟩
        simp only [Prod.mk.injEq] at heq
        obtain ⟨hp, hs, hr⟩ := heq
        subst hp
        subst hs
        refine ⟨by simp [stateRank], Or.inr (Or.inl ⟨rfl, rfl, ?_⟩)⟩
        exact decode_handshake_shape hdec
      · -- LoginStart
        rcases Option.map_eq_some'.mp h with ⟨⟨pkt, rr⟩, hdec, heq⟩
        simp only [Prod.mk.injEq] at heq
        obtain ⟨hp, hs, hr⟩ := heq
        subst hs
        exact ⟨le_refl _, Or.inl rfl⟩
      · -- LoginAck
        simp only [Option.some.injEq, Prod.mk.injEq] at h
        obtain ⟨hp, hs, hr⟩ := h
        subst hs
        exact ⟨by simp [stateRank], Or.inr (Or.inr (Or.inl ⟨rfl, rfl, hp.symm⟩))⟩
      · -- PluginMessageConfig
        rcases Option.map_eq_some'.mp h with ⟨⟨pkt, rr⟩, hdec, heq⟩
        simp only [Prod.mk.injEq] at heq
        obtain ⟨hp, hs, hr⟩ := heq
        subst hs
        exact ⟨le_refl _, Or.inl rfl⟩
      · -- ClientInfoConfig
        rcases Option.map_eq_some'.mp h with ⟨⟨pkt, rr⟩, hdec, heq⟩
        simp only [Prod.mk.injEq] at heq
        obtain ⟨hp, hs, hr⟩ := heq
        subst hs
        exact ⟨le_refl _, Or.inl rfl⟩
      · -- FinishConfig
        simp only [Option.some.injEq, Prod.mk.injEq] at h
        obtain ⟨hp, hs, hr⟩ := h
        subst hs
        exact ⟨by simp [stateRank], Or.inr (Or.inr (Or.inr ⟨rfl, rfl, hp.symm⟩))⟩
      · -- unknown (state, id): panic
        exact absurd h (by simp)

/-! ### Reference happy-path frames (spec section 8.2, scenario 7) -/

/-- Handshake frame: len 16, id 0, protocol_version VarInt(764), server
address "localhost", port 25565, next_state VarInt(2) (Login). -/
def hsFrame : List Nat :=
  [16, 0, 252, 5, 9, 108, 111, 99, 97, 108, 104, 111, 115, 116, 99, 221, 2]

/-- LoginStart frame: len 22, id 0, name "Alex", 16-byte uuid 7. -/
def lsFrame : List Nat :=
  [22, 0, 4, 65, 108, 101, 120, 0, 0, 0, 0, 0, 0, 0, 0, 0, 0, 0, 0, 0, 0, 0, 7]

/-- LoginAck frame: len 1, id 3. -/
def laFrame : List Nat := [1, 3]

/-- ClientInfoConfig frame: len 11, id 0, locale "en", view distance 10,
chat mode 0, chat colors true, skin parts 127, main hand 1, filtering
false, listings true. -/
def ciFrame : List Nat := [11, 0, 2, 101, 110, 10, 0, 1, 127, 1, 0, 1]

/-- PluginMessage frame: len 7, id 1, channel "mc", 3 data bytes. -/
def pmFrame : List Nat := [7, 1, 2, 109, 99, 1, 2, 3]

/-- FinishConfig frame: len 1, id 2. -/
def fcFrame : List Nat := [1, 2]

/-- C2. Inbound state machine: decoding the happy-path sequence
Handshake(next=Login), LoginStart, LoginAck, ClientInfoConfig,
PluginMessage, FinishConfig from Handshaking leaves the states Login,
Login, Config, Config, Config, Play; the only inbound transitions are
Handshake (Handshaking to Login), LoginAck (Login to Config) and
FinishConfig (Config to Play); every other successfully decoded packet
leaves the state unchanged, and no transition lowers the state rank. -/
theorem C2_inbound_state_machine :
    (next_packet .handshaking
        (hsFrame ++ (lsFrame ++ (laFrame ++ (ciFrame ++ (pmFrame ++ fcFrame)))))
        = some (.handshake 764 [108, 111, 99, 97, 108, 104, 111, 115, 116] 25565
            .login, .login, lsFrame ++ (laFrame ++ (ciFrame ++ (pmFrame ++ fcFrame))))
      ∧ next_packet .login (lsFrame ++ (laFrame ++ (ciFrame ++ (pmFrame ++ fcFrame))))
        = some (.loginStart [65, 108, 101, 120] 7, .login,
            laFrame ++ (ciFrame ++ (pmFrame ++ fcFrame)))
      ∧ next_packet .login (laFrame ++ (ciFrame ++ (pmFrame ++ fcFrame)))
        = some (.loginAck, .config, ciFrame ++ (pmFrame ++ fcFrame))
      ∧ next_packet .config (ciFrame ++ (pmFrame ++ fcFrame))
        = some (.clientInfoConfig [101, 110] 10 .enabled true 127 .right false true,
            .config, pmFrame ++ fcFrame)
      ∧ next_packet .config (pmFrame ++ fcFrame)
        = some (.pluginMessageConfig [109, 99] [1, 2, 3], .config, fcFrame)
      ∧ next_packet .config fcFrame = some (.finishConfig, .play, []))
    ∧
    (∀ (st : ConnState) (input : List Nat) (p : InPacket) (st' : ConnState)
        (rest : List Nat),
      next_packet st input = some (p, st', rest) →
      stateRank st ≤ stateRank st'
      ∧ (st' = st
        ∨ (st = .handshaking ∧ st' = .login ∧ ∃ pv sa sp ns, p = .handshake pv sa sp ns)
        ∨ (st = .login ∧ st' = .config ∧ p = .loginAck)
        ∨ (st = .config ∧ st' = .play ∧ p = .finishConfig))) :=
  ⟨⟨by decide, by decide, by decide, by decide, by decide, by decide⟩,
    next_packet_state_transitions⟩

theorem C2_inbound_state_machine_witness :
    stateRank .config ≤ stateRank .play
    ∧ (ConnState.play = ConnState.config
      ∨ (ConnState.config = .handshaking ∧ ConnState.play = .login
          ∧ ∃ pv sa sp ns, InPacket.finishConfig = .handshake pv sa sp ns)
      ∨ (ConnState.config = .login ∧ ConnState.play = .config
          ∧ InPacket.finishConfig = .loginAck)
      ∨ (ConnState.config = .config ∧ ConnState.play = .play
          ∧ InPacket.finishConfig = .finishConfig)) :=
  C2_inbound_state_machine.2 .config fcFrame .finishConfig .play [] (by decide)

/-- C8. PluginMessage payload length: in Config with packet id 0x01, the
decoded PluginMessage carries exactly
`body_bytes - bytes_consumed_by(channel)` data bytes, where
`body_bytes = total_len - id_bytes` and the channel consumed its VarInt
length prefix plus content; the difference must be non-negative, and the
data bytes are exactly the next bytes of the stream. -/
theorem C8_plugin_message_length :
    ∀ (input : List Nat) (L : Int) (r0 : List Nat) (idn : Nat) (r1 : List Nat)
      (p : InPacket) (st' : ConnState) (rest : List Nat),
    read_varint_i input = some (L, r0) →
    read_varint_with_nread r0 = some (1, idn, r1) →
    next_packet .config input = some (p, st', rest) →
    ∃ ch data sn r2, read_varint_string_with_nread r1 = some (ch, sn, r2)
      ∧ p = .pluginMessageConfig ch data ∧ st' = .config
      ∧ 0 ≤ L - idn - sn
      ∧ (data.length : Int) = L - idn - sn
      ∧ r2 = data ++ rest := by
  intro input L r0 idn r1 p st' rest h1 h2 h3
  unfold next_packet at h3
  rw [h1] at h3
  simp only [] at h3
  rw [h2] at h3
  simp only [] at h3
  rcases Option.map_eq_some'.mp h3 with ⟨⟨pkt, rr⟩, hdec, heq⟩
  simp only [Prod.mk.injEq] at heq
  obtain ⟨hp, hs, hr⟩ := heq
  simp only [decode_plugin_message, Option.bind_eq_bind, Option.bind_eq_some] at hdec
  obtain ⟨⟨ch, sn, r2⟩, hstr, hdec⟩ := hdec
  split at hdec
  · rename_i hnonneg
    simp only [Option.bind_eq_bind, Option.bind_eq_some] at hdec
    obtain ⟨⟨data, r3⟩, hrb, hsome⟩ := hdec
    simp only [Option.some.injEq, Prod.mk.injEq] at hsome
    obtain ⟨hpkt, hr3⟩ := hsome
    unfold readBytes at hrb
    split at hrb
    · rename_i hklen
      have hklen' : (L - ↑idn - ↑sn).toNat ≤ r2.length := hklen
      have hnonneg' : (0 : Int) ≤ L - ↑idn - ↑sn := hnonneg
      simp only [Option.some.injEq, Prod.mk.injEq] at hrb
      obtain ⟨hdata, hr3'⟩ := hrb
      refine ⟨ch, data, sn, r2, hstr, ?_, hs.symm, hnonneg', ?_, ?_⟩
      · rw [← hp, ← hpkt]
      · rw [← hdata, List.length_take]
        have : min (L - ↑idn - ↑sn).toNat r2.length = (L - ↑idn - ↑sn).toNat := by
          omega
        rw [this]
        omega
      · rw [← hr, ← hr3, ← hr3', ← hdata]
        exact (List.take_append_drop _ r2).symm
    · exact absurd hrb (by simp)
  · exact absurd hdec (by simp)

theorem C8_plugin_message_length_witness :
    ∃ ch data sn r2,
      read_varint_string_with_nread [2, 109, 99, 1, 2, 3] = some (ch, sn, r2)
      ∧ InPacket.pluginMessageConfig [109, 99] [1, 2, 3]
          = .pluginMessageConfig ch data
      ∧ ConnState.config = ConnState.config
      ∧ 0 ≤ (7 : Int) - ((1 : Nat) : Int) - ((sn : Nat) : Int)
      ∧ ((data.length : Nat) : Int) = (7 : Int) - ((1 : Nat) : Int) - ((sn : Nat) : Int)
      ∧ r2 = data ++ [] :=
  C8_plugin_message_length pmFrame 7 [1, 2, 109, 99, 1, 2, 3] 1 [2, 109, 99, 1, 2, 3]
    (.pluginMessageConfig [109, 99] [1, 2, 3]) .config []
    (by decide) (by decide) (by decide)

/-! ## NBT codec (nbt.rs)

`CompoundNbt` props are a HashMap in Rust; here they are an association
list in insertion order, with `set` replacing an existing key in place
(latest value wins), which pins one of the iteration orders the HashMap may
produce.  Float and Double payloads are carried as their raw big-endian bit
patterns (the Rust code only transports the bytes). -/

mutual
inductive Nbt where
  | compound (c : CompoundNbt)
  | byte (v : Int)
  | short (v : Int)
  | int (v : Int)
  | long (v : Int)
  | float (bits : Nat)
  | double (bits : Nat)
  | byteArray (vs : List Int)
  | string (s : List Nat)
  | list (l : NbtList)
  | intArray (vs : List Int)
  | longArray (vs : List Int)
inductive NbtList where
  | compound (xs : List CompoundNbt)
  | byte (xs : List Int)
  | short (xs : List Int)
  | int (xs : List Int)
  | long (xs : List Int)
  | float (xs : List Nat)
  | double (xs : List Nat)
  | string (xs : List (List Nat))
inductive CompoundNbt where
  | mk (name : List Nat) (props : List (List Nat × Nbt))
end

def CompoundNbt.name : CompoundNbt → List Nat
  | .mk n _ => n

def CompoundNbt.props : CompoundNbt → List (List Nat × Nbt)
  | .mk _ ps => ps

/-- Insert into the prop map: replace the value of an existing key, else
append (`HashMap::insert`). -/
def setProp : List (List Nat × Nbt) → List Nat → Nbt → List (List Nat × Nbt)
  | [], k, v => [(k, v)]
  | (k', v') :: rest, k, v =>
    if k' = k then (k, v) :: rest else (k', v') :: setProp rest k v

/-- `CompoundNbt::set`. -/
def CompoundNbt.set (c : CompoundNbt) (k : List Nat) (v : Nbt) : CompoundNbt :=
  match c with
  | .mk n ps => .mk n (setProp ps k v)

/-- `read_short` and kin: signed big-endian integers. -/
def read_i16 : List Nat → Option (Int × List Nat)
  | b1 :: b2 :: rest =>
    let u := b1 * 256 + b2
    some (if u < 32768 then (u : Int) else (u : Int) - 65536, rest)
  | _ => none

def read_i32 : List Nat → Option (Int × List Nat)
  | b1 :: b2 :: b3 :: b4 :: rest =>
    let u := ((b1 * 256 + b2) * 256 + b3) * 256 + b4
    some (if u < 2147483648 then (u : Int) else (u : Int) - 4294967296, rest)
  | _ => none

def read_i64 (input : List Nat) : Option (Int × List Nat) :=
  (readBytes 8 input).map fun (bs, rest) =>
    (ofU64 (bs.foldl (fun a b => a * 256 + b) 0), rest)

/-- `read_float` and `read_double` transport the raw bit pattern. -/
def read_f32bits (input : List Nat) : Option (Nat × List Nat) :=
  (readBytes 4 input).map fun (bs, rest) =>
    (bs.foldl (fun a b => a * 256 + b) 0, rest)

def read_f64bits (input : List Nat) : Option (Nat × List Nat) :=
  (readBytes 8 input).map fun (bs, rest) =>
    (bs.foldl (fun a b => a * 256 + b) 0, rest)

/-- `read_tagtype` (nbt.rs lines 250-268): one i8; 0 through 12 name tag
types, everything else (including any byte that is negative as an i8)
panics. -/
def read_tagtype : List Nat → Option (Nat × List Nat)
  | b :: rest => if b ≤ 12 then some (b, rest) else none
  | _ => none

/-- Read `k` values with a fixed-size reader (the `for _ in 0..len` loops of
nbt.rs). -/
def readCount {α : Type} (reader : List Nat → Option (α × List Nat)) :
    Nat → List Nat → Option (List α × List Nat)
  | 0, input => some ([], input)
  | k + 1, input => do
    let (v, r1) ← reader input
    let (vs, r2) ← readCount reader k r1
    some (v :: vs, r2)

mutual
/-- `read_nbt` (nbt.rs lines 124-248), dispatching on a tag id.  `fuel`
bounds the recursion depth and loop counts; the wrapper passes enough.
Negative array lengths fail the `assert!(len >= 0)`; list element tag ids
outside the eight supported ones hit `todo!()`; both are `none`. -/
def read_nbt_payload : Nat → Nat → List Nat → Option (Nbt × List Nat)
  | 0, _, _ => none
  | fuel + 1, tag, input =>
    match tag with
    | 1 => (read_i8 input).map fun (v, r) => (.byte v, r)
    | 2 => (read_i16 input).map fun (v, r) => (.short v, r)
    | 3 => (read_i32 input).map fun (v, r) => (.int v, r)
    | 4 => (read_i64 input).map fun (v, r) => (.long v, r)
    | 5 => (read_f32bits input).map fun (v, r) => (.float v, r)
    | 6 => (read_f64bits input).map fun (v, r) => (.double v, r)
    | 7 => do
      let (len, r1) ← read_i32 input
      if 0 ≤ len then
        let (vs, r2) ← readCount read_i8 len.toNat r1
        some (.byteArray vs, r2)
      else none
    | 8 => (read_ushort_string input).map fun (s, r) => (.string s, r)
    | 9 => do
      let (ltag, r1) ← read_tagtype input
      let (len, r2) ← read_i32 r1
      match ltag with
      | 8 => do
        if 0 ≤ len then
          let (vs, r3) ← readCount read_ushort_string len.toNat r2
          some (.list (.string vs), r3)
        else none
      | 10 => do
        if 0 ≤ len then
          let (vs, r3) ← read_compound_list fuel len.toNat r2
          some (.list (.compound vs), r3)
        else none
      | 3 => do
        if 0 ≤ len then
          let (vs, r3) ← readCount read_i32 len.toNat r2
          some (.list (.int vs), r3)
        else none
      | 4 => do
        if 0 ≤ len then
          let (vs, r3) ← readCount read_i64 len.toNat r2
          some (.list (.long vs), r3)
        else none
      | 2 => do
        if 0 ≤ len then
          let (vs, r3) ← readCount read_i16 len.toNat r2
          some (.list (.short vs), r3)
        else none
      | 1 => do
        if 0 ≤ len then
          let (vs, r3) ← readCount read_i8 len.toNat r2
          some (.list (.byte vs), r3)
        else none
      | 6 => do
        if 0 ≤ len then
          let (vs, r3) ← readCount read_f64bits len.toNat r2
          some (.list (.double vs), r3)
        else none
      | 5 => do
        if 0 ≤ len then
          let (vs, r3) ← readCount read_f32bits len.toNat r2
          some (.list (.float vs), r3)
        else none
      | _ => none
    | 10 => (read_compound_fuel fuel input).map fun (c, r) => (.compound c, r)
    | 11 => do
      let (len, r1) ← read_i32 input
      if 0 ≤ len then
        let (vs, r2) ← readCount read_i32 len.toNat r1
        some (.intArray vs, r2)
      else none
    | 12 => do
      let (len, r1) ← read_i32 input
      if 0 ≤ len then
        let (vs, r2) ← readCount read_i64 len.toNat r1
        some (.longArray vs, r2)
      else none
    | _ => none

/-- `Nbt::read_compound` (nbt.rs lines 69-91): the tag byte must be 10, then
the compound name, then the property loop. -/
def read_compound_fuel : Nat → List Nat → Option (CompoundNbt × List Nat)
  | 0, _ => none
  | fuel + 1, input => do
    let (tt, r1) ← read_tagtype input
    if tt = 10 then do
      let (cname, r2) ← read_ushort_string r1
      read_compound_props fuel (CompoundNbt.mk cname []) r2
    else none

/-- The property loop of `read_compound`: tag byte, End terminates,
otherwise name and payload, inserted into the map. -/
def read_compound_props : Nat → CompoundNbt → List Nat →
    Option (CompoundNbt × List Nat)
  | 0, _, _ => none
  | fuel + 1, acc, input => do
    let (tagid, r1) ← read_tagtype input
    if tagid = 0 then some (acc, r1)
    else do
      let (ename, r2) ← read_ushort_string r1
      let (elem, r3) ← read_nbt_payload fuel tagid r2
      read_compound_props fuel (acc.set ename elem) r3

/-- Elements of a list of compounds: the Rust loop calls the full
`Nbt::read_compound` (expecting a tag byte 10 per element). -/
def read_compound_list : Nat → Nat → List Nat →
    Option (List CompoundNbt × List Nat)
  | _, 0, input => some ([], input)
  | 0, _ + 1, _ => none
  | fuel + 1, k + 1, input => do
    let (c, r1) ← read_compound_fuel fuel input
    let (cs, r2) ← read_compound_list fuel k r1
    some (c :: cs, r2)
end

/-- Public `Nbt::read_compound` entry point; the fuel bound is generous
(every property or nested value consumes at least one input byte). -/
def read_compound (input : List Nat) : Option (CompoundNbt × List Nat) :=
  read_compound_fuel (input.length + 1) input

/-- `write_ushort_string` (proto.rs lines 506-510): u16 length then bytes;
`s.len().try_into::<u16>().unwrap()` panics above 65535. -/
def write_ushort_string (s : List Nat) : Option (List Nat) :=
  if s.length < 65536 then some (beBytes 2 s.length ++ s) else none

/-- The `len().try_into::<i32>().unwrap()` + `write_int` combination used
for array and list lengths. -/
def write_len_i32 (n : Nat) : Option (List Nat) :=
  if n ≤ 2147483647 then some (beBytes 4 n) else none

/-- Bit pattern of an i16 / i32 value (to_be_bytes). -/
def toU16 (x : Int) : Nat := (x % 65536).toNat

def toU32 (x : Int) : Nat := (x % 4294967296).toNat

mutual
/-- `write_compound_nbt_no_tagtype` (nbt.rs lines 274-403): compound name,
the properties in map order, and the End byte. -/
def write_compound_nbt_no_tagtype : CompoundNbt → Option (List Nat)
  | .mk cname props => do
    let nameB ← write_ushort_string cname
    let propsB ← write_props props
    some (nameB ++ propsB ++ [0])
termination_by c => (sizeOf c, 0)

def write_props : List (List Nat × Nbt) → Option (List Nat)
  | [] => some []
  | (pname, v) :: rest => do
    let hd ← write_prop pname v
    let tl ← write_props rest
    some (hd ++ tl)
termination_by ps => (sizeOf ps, 0)

/-- One property: tag type, property name, payload.  A compound property is
written through `write_compound_nbt`, which emits the compound's own stored
name, not the property name (nbt.rs line 278). -/
def write_prop (pname : List Nat) : Nbt → Option (List Nat)
  | .compound c => write_compound_nbt c
  | .string s => do
    let nb ← write_ushort_string pname
    let sb ← write_ushort_string s
    some ([8] ++ nb ++ sb)
  | .byte v => do
    let nb ← write_ushort_string pname
    some ([1] ++ nb ++ [toU8 v])
  | .short v => do
    let nb ← write_ushort_string pname
    some ([2] ++ nb ++ beBytes 2 (toU16 v))
  | .int v => do
    let nb ← write_ushort_string pname
    some ([3] ++ nb ++ beBytes 4 (toU32 v))
  | .long v => do
    let nb ← write_ushort_string pname
    some ([4] ++ nb ++ beBytes 8 (toU64 v))
  | .float bits => do
    let nb ← write_ushort_string pname
    some ([5] ++ nb ++ beBytes 4 bits)
  | .double bits => do
    let nb ← write_ushort_string pname
    some ([6] ++ nb ++ beBytes 8 bits)
  | .list l => do
    let nb ← write_ushort_string pname
    let lb ← write_list_payload l
    some ([9] ++ nb ++ lb)
  | .byteArray vs => do
    let nb ← write_ushort_string pname
    let lenB ← write_len_i32 vs.length
    some ([7] ++ nb ++ lenB ++ vs.map toU8)
  | .intArray vs => do
    let nb ← write_ushort_string pname
    let lenB ← write_len_i32 vs.length
    some ([11] ++ nb ++ lenB ++ (vs.map fun x => beBytes 4 (toU32 x)).flatten)
  | .longArray vs => do
    let nb ← write_ushort_string pname
    let lenB ← write_len_i32 vs.length
    some ([12] ++ nb ++ lenB ++ (vs.map fun x => beBytes 8 (toU64 x)).flatten)
termination_by v => (sizeOf v, 0)

/-- A list payload: element tag type, i32 length, then the elements
(nbt.rs lines 317-374); compound elements are written without tag bytes. -/
def write_list_payload : NbtList → Option (List Nat)
  | .compound cs => do
    let lenB ← write_len_i32 cs.length
    let body ← write_compound_list cs
    some ([10] ++ lenB ++ body)
  | .byte xs => do
    let lenB ← write_len_i32 xs.length
    some ([1] ++ lenB ++ xs.map toU8)
  | .short xs => do
    let lenB ← write_len_i32 xs.length
    some ([2] ++ lenB ++ (xs.map fun x => beBytes 2 (toU16 x)).flatten)
  | .int xs => do
    let lenB ← write_len_i32 xs.length
    some ([3] ++ lenB ++ (xs.map fun x => beBytes 4 (toU32 x)).flatten)
  | .long xs => do
    let lenB ← write_len_i32 xs.length
    some ([4] ++ lenB ++ (xs.map fun x => beBytes 8 (toU64 x)).flatten)
  | .float xs => do
    let lenB ← write_len_i32 xs.length
    some ([5] ++ lenB ++ (xs.map fun b => beBytes 4 b).flatten)
  | .double xs => do
    let lenB ← write_len_i32 xs.length
    some ([6] ++ lenB ++ (xs.map fun b => beBytes 8 b).flatten)
  | .string xs => do
    let lenB ← write_len_i32 xs.length
    let body ← write_string_list xs
    some ([8] ++ lenB ++ body)
termination_by l => (sizeOf l, 0)

def write_string_list : List (List Nat) → Option (List Nat)
  | [] => some []
  | s :: rest => do
    let hd ← write_ushort_string s
    let tl ← write_string_list rest
    some (hd ++ tl)
termination_by xs => (sizeOf xs, 0)

def write_compound_list : List CompoundNbt → Option (List Nat)
  | [] => some []
  | c :: rest => do
    let hd ← write_compound_nbt_no_tagtype c
    let tl ← write_compound_list rest
    some (hd ++ tl)
termination_by cs => (sizeOf cs, 0)

/-- `write_compound_nbt` (nbt.rs lines 405-408): tag byte 10 then the
compound. -/
def write_compound_nbt (c : CompoundNbt) : Option (List Nat) := do
  let b ← write_compound_nbt_no_tagtype c
  some ((10 : Nat) :: b)
termination_by (sizeOf c, 1)
end

/-- The NBT test fixture of nbt.rs (test `basic_nbt_serde`) and spec
scenario 1: a compound named "hello world" with one String property
"meme" = "Bananrama". -/
def nbtFixture : List Nat :=
  [10, 0, 11, 104, 101, 108, 108, 111, 32, 119, 111, 114, 108, 100,
   8, 0, 4, 109, 101, 109, 101, 0, 9, 66, 97, 110, 97, 110, 114, 97, 109, 97, 0]

/-- C3. NBT fixture round-trip: parsing the fixture yields the root
compound named "hello world" whose properties are exactly the one String
"meme" = "Bananrama", with the whole input consumed; serializing that
compound reproduces the input bytes. -/
theorem C3_nbt_fixture_round_trip :
    read_compound nbtFixture
      = some (CompoundNbt.mk
          [104, 101, 108, 108, 111, 32, 119, 111, 114, 108, 100]
          [([109, 101, 109, 101],
            Nbt.string [66, 97, 110, 97, 110, 114, 97, 109, 97])], [])
    ∧ write_compound_nbt (CompoundNbt.mk
          [104, 101, 108, 108, 111, 32, 119, 111, 114, 108, 100]
          [([109, 101, 109, 101],
            Nbt.string [66, 97, 110, 97, 110, 114, 97, 109, 97])])
      = some nbtFixture := by
  constructor
  · rfl
  · simp [write_compound_nbt, write_compound_nbt_no_tagtype, write_props,
      write_prop, write_ushort_string, nbtFixture, beBytes]

/-- C9 counterexample: a List payload with element tag id 7 (ByteArray) and
length 0 does not decode; the `todo!()` arm of the list reader panics even
for an empty list, refuting the claim that every element tag id from 0
through 12 succeeds. -/
theorem C9_counterexample :
    read_nbt_payload 5 9 [7, 0, 0, 0, 0] = none := rfl

/-- C9 amended: an empty List payload decodes, consuming exactly the element
tag-id byte and the four length bytes and retaining the element tag in the
value, for the eight supported element tags (Byte, Short, Int, Long, Float,
Double, String, Compound); for element tags 0 (End), 7 (ByteArray),
9 (List), 11 (IntArray) and 12 (LongArray) the reader panics (todo) even at
length 0. -/
theorem C9_empty_list_decoding :
    (∀ (fuel : Nat) (rest : List Nat),
      read_nbt_payload (fuel + 1) 9 (1 :: 0 :: 0 :: 0 :: 0 :: rest)
        = some (.list (.byte []), rest))
    ∧ (∀ (fuel : Nat) (rest : List Nat),
      read_nbt_payload (fuel + 1) 9 (2 :: 0 :: 0 :: 0 :: 0 :: rest)
        = some (.list (.short []), rest))
    ∧ (∀ (fuel : Nat) (rest : List Nat),
      read_nbt_payload (fuel + 1) 9 (3 :: 0 :: 0 :: 0 :: 0 :: rest)
        = some (.list (.int []), rest))
    ∧ (∀ (fuel : Nat) (rest : List Nat),
      read_nbt_payload (fuel + 1) 9 (4 :: 0 :: 0 :: 0 :: 0 :: rest)
        = some (.list (.long []), rest))
    ∧ (∀ (fuel : Nat) (rest : List Nat),
      read_nbt_payload (fuel + 1) 9 (5 :: 0 :: 0 :: 0 :: 0 :: rest)
        = some (.list (.float []), rest))
    ∧ (∀ (fuel : Nat) (rest : List Nat),
      read_nbt_payload (fuel + 1) 9 (6 :: 0 :: 0 :: 0 :: 0 :: rest)
        = some (.list (.double []), rest))
    ∧ (∀ (fuel : Nat) (rest : List Nat),
      read_nbt_payload (fuel + 1) 9 (8 :: 0 :: 0 :: 0 :: 0 :: rest)
        = some (.list (.string []), rest))
    ∧ (∀ (fuel : Nat) (rest : List Nat),
      read_nbt_payload (fuel + 1) 9 (10 :: 0 :: 0 :: 0 :: 0 :: rest)
        = some (.list (.compound []), rest))
    ∧ (∀ (fuel : Nat) (rest : List Nat),
      read_nbt_payload (fuel + 1) 9 (0 :: 0 :: 0 :: 0 :: 0 :: rest) = none)
    ∧ (∀ (fuel : Nat) (rest : List Nat),
      read_nbt_payload (fuel + 1) 9 (7 :: 0 :: 0 :: 0 :: 0 :: rest) = none)
    ∧ (∀ (fuel : Nat) (rest : List Nat),
      read_nbt_payload (fuel + 1) 9 (9 :: 0 :: 0 :: 0 :: 0 :: rest) = none)
    ∧ (∀ (fuel : Nat) (rest : List Nat),
      read_nbt_payload (fuel + 1) 9 (11 :: 0 :: 0 :: 0 :: 0 :: rest) = none)
    ∧ (∀ (fuel : Nat) (rest : List Nat),
      read_nbt_payload (fuel + 1) 9 (12 :: 0 :: 0 :: 0 :: 0 :: rest) = none) :=
  ⟨fun _ _ => rfl, fun _ _ => rfl, fun _ _ => rfl, fun _ _ => rfl,
   fun _ _ => rfl, fun _ _ => rfl, fun _ _ => rfl,
   fun fuel _ => by cases fuel <;> rfl,
   fun _ _ => rfl, fun _ _ => rfl, fun _ _ => rfl, fun _ _ => rfl,
   fun _ _ => rfl⟩

/-! ## Outbound packets and the send path (proto.rs lines 55-187, 303-458) -/

structure LoginSuccessProp where
  name : List Nat
  value : List Nat
  signature : Option (List Nat)
deriving DecidableEq

inductive GameMode where
  | survival
  | creative
  | adventure
  | spectator
deriving DecidableEq

/-- `gm as u8` for the `#[repr(u8)]` GameMode enum. -/
def gameModeU8 : GameMode → Nat
  | .survival => 0
  | .creative => 1
  | .adventure => 2
  | .spectator => 3

structure DeathInfo where
  dimension : List Nat
  location : Position

structure BlockEntity where
  x : Nat
  z : Nat
  y : Int
  tipe : Int
  data : CompoundNbt

inductive OutPacket where
  | disconnectLogin (reason : List Nat)
  | loginSuccess (uuid : Nat) (username : List Nat) (props : List LoginSuccessProp)
  | finishConfig
  | loginPlay (entity_id : Int) (is_hardcore : Bool)
      (dimension_names : List (List Nat)) (max_players : Int)
      (view_distance : Int) (simulation_distance : Int)
      (reduced_debug_info : Bool) (enable_respawn_screen : Bool)
      (do_limited_crafting : Bool) (dimension_type : List Nat)
      (dimension_name : List Nat) (hashed_seed : Int) (game_mode : GameMode)
      (prev_game_mode : Option GameMode) (is_debug : Bool) (is_superflat : Bool)
      (death_info : Option DeathInfo) (portal_cooldown : Int)
  | chunkDataAndUpdateLight (chunk_x : Int) (chunk_z : Int)
      (heightmaps : CompoundNbt) (data : List Int)
      (block_entities : List BlockEntity) (sky_light_mask : BitSet)
      (block_light_mask : BitSet) (empty_sky_light_mask : BitSet)
      (empty_block_light_mask : BitSet) (sky_light_arrays : List (List Int))
      (block_light_arrays : List (List Int))

/-- `write_string` (proto.rs lines 614-618): VarInt byte length, then the
bytes. -/
def write_string (s : List Nat) : List Nat :=
  write_varint (s.length : Int) ++ s

def write_bool_b (b : Bool) : List Nat := [if b then 1 else 0]

def write_uuid (u : Nat) : List Nat := beBytes 16 u

def write_i32 (x : Int) : List Nat := beBytes 4 (toU32 x)

def write_i64 (x : Int) : List Nat := beBytes 8 (toU64 x)

/-- `write_bitset` (proto.rs lines 665-670): VarInt word count then the
big-endian i64 words. -/
def write_bitset (bs : BitSet) : List Nat :=
  write_varint (bs.longs.length : Int) ++ (bs.longs.map (beBytes 8)).flatten

/-- `write_block_entity` (proto.rs lines 672-677): the packed nibble byte
`((x as i8 & 15) << 4) | (z as i8 & 15)`, the i16 y, the VarInt type, and
the embedded NBT compound. -/
def write_block_entity (b : BlockEntity) : Option (List Nat) :=
  (write_compound_nbt b.data).map fun nbtB =>
    ((b.x % 16) * 16 + b.z % 16) :: (beBytes 2 (toU16 b.y)
      ++ write_varint b.tipe ++ nbtB)

def write_block_entity_list : List BlockEntity → Option (List Nat)
  | [] => some []
  | b :: rest => do
    let hd ← write_block_entity b
    let tl ← write_block_entity_list rest
    some (hd ++ tl)

/-- One LoginSuccess property: name, value, has_signature flag and optional
signature (proto.rs lines 334-344). -/
def write_login_prop (p : LoginSuccessProp) : List Nat :=
  write_string p.name ++ write_string p.value ++
    match p.signature with
    | some sig => write_bool_b true ++ write_string sig
    | none => write_bool_b false

/-- A 2048-byte light array: `write_varint(buf, 2048)` then the bytes
(proto.rs lines 437-450); the 2048 prefix is fixed by the code, the array
length is fixed by the Rust type `[i8; 2048]`. -/
def write_light_array (arr : List Int) : List Nat :=
  write_varint 2048 ++ arr.map toU8

/-- The scratch-buffer contents of `PacketStream::send` for each packet:
VarInt packet id, then the payload fields in order (proto.rs lines
304-455).  The only fallible step is `write_position` inside a LoginPlay
death location (and the NBT length guards). -/
def packet_body : OutPacket → Option (List Nat)
  | .disconnectLogin reason =>
    some (write_varint 0
      ++ ([123, 116, 101, 120, 116, 58, 34] ++ reason ++ [34, 125]))
  | .loginSuccess uuid username props =>
    some (write_varint 2 ++ write_uuid uuid ++ write_string username
      ++ write_varint (props.length : Int) ++ (props.map write_login_prop).flatten)
  | .finishConfig => some (write_varint 2)
  | .loginPlay entity_id is_hardcore dimension_names max_players view_distance
      simulation_distance reduced_debug_info enable_respawn_screen
      do_limited_crafting dimension_type dimension_name hashed_seed game_mode
      prev_game_mode is_debug is_superflat death_info portal_cooldown => do
    let deathB ← match death_info with
      | none => some (write_bool_b false)
      | some di => (write_position di.location).map fun posB =>
          write_bool_b true ++ write_string di.dimension ++ posB
    some (write_varint 41 ++ write_i32 entity_id ++ write_bool_b is_hardcore
      ++ write_varint (dimension_names.length : Int)
      ++ (dimension_names.map write_string).flatten
      ++ write_varint max_players ++ write_varint view_distance
      ++ write_varint simulation_distance ++ write_bool_b reduced_debug_info
      ++ write_bool_b enable_respawn_screen ++ write_bool_b do_limited_crafting
      ++ write_string dimension_type ++ write_string dimension_name
      ++ write_i64 hashed_seed ++ [gameModeU8 game_mode]
      ++ (match prev_game_mode with
          | none => [toU8 (-1)]
          | some gm => [gameModeU8 gm])
      ++ write_bool_b is_debug ++ write_bool_b is_superflat
      ++ deathB ++ write_varint portal_cooldown)
  | .chunkDataAndUpdateLight chunk_x chunk_z heightmaps data block_entities
      sky_light_mask block_light_mask empty_sky_light_mask
      empty_block_light_mask sky_light_arrays block_light_arrays => do
    let hmB ← write_compound_nbt heightmaps
    let bentB ← write_block_entity_list block_entities
    some (write_varint 37 ++ write_i32 chunk_x ++ write_i32 chunk_z ++ hmB
      ++ write_varint (data.length : Int) ++ data.map toU8
      ++ write_varint (block_entities.length : Int) ++ bentB
      ++ write_bitset sky_light_mask ++ write_bitset block_light_mask
      ++ write_bitset empty_sky_light_mask ++ write_bitset empty_block_light_mask
      ++ write_varint (sky_light_arrays.length : Int)
      ++ (sky_light_arrays.map write_light_array).flatten
      ++ write_varint (block_light_arrays.length : Int)
      ++ (block_light_arrays.map write_light_array).flatten)

/-- The VarInt packet id `send` writes first for each packet. -/
def packetId : OutPacket → Int
  | .disconnectLogin _ => 0
  | .loginSuccess _ _ _ => 2
  | .finishConfig => 2
  | .loginPlay _ _ _ _ _ _ _ _ _ _ _ _ _ _ _ _ _ _ => 41
  | .chunkDataAndUpdateLight _ _ _ _ _ _ _ _ _ _ _ => 37

/-- `PacketStream::send` (proto.rs lines 304-458): serialize into the
scratch buffer, then write `VarInt(buf.len())` followed by the buffer to
the real output (a `Vec` length always fits an i64 on the 64-bit target, so
the final `try_into` cannot fail). -/
def send (p : OutPacket) : Option (List Nat) :=
  (packet_body p).map fun buf => write_varint (buf.length : Int) ++ buf

/-- C4. Outbound frame length self-consistency: whenever the scratch buffer
for a packet is built (length n), the bytes sent are exactly VarInt(n)
followed by those n bytes; decoding the emitted length prefix gives back
exactly the byte count of the rest of the frame, and the scratch buffer
itself starts with the VarInt packet id followed by the payload. -/
theorem C4_frame_length_self_consistency :
    ∀ (p : OutPacket) (body : List Nat),
    packet_body p = some body → body.length < 9223372036854775808 →
    send p = some (write_varint (body.length : Int) ++ body)
    ∧ read_varint_with_nread (write_varint (body.length : Int) ++ body)
        = some ((body.length : Int), (write_varint (body.length : Int)).length, body)
    ∧ ∃ payload, body = write_varint (packetId p) ++ payload := by
  intro p body hbody hlen
  refine ⟨?_, ?_, ?_⟩
  · unfold send
    rw [hbody]
    rfl
  · exact read_write_varint _ body (by omega) (by omega)
  · cases p with
    | disconnectLogin reason =>
      simp only [packet_body, Option.some.injEq] at hbody
      exact ⟨_, hbody.symm⟩
    | loginSuccess u n pr =>
      simp only [packet_body, Option.some.injEq] at hbody
      rw [← hbody]
      simp only [packetId, List.append_assoc]
      exact ⟨_, rfl⟩
    | finishConfig =>
      simp only [packet_body, Option.some.injEq] at hbody
      rw [← hbody]
      exact ⟨[], by simp [packetId]⟩
    | loginPlay eid hc dn mp vd sd rdi ers dlc dt dn2 hs gm pgm dbg sf di pc =>
      simp only [packet_body] at hbody
      split at hbody
      · simp only [Option.bind_eq_bind, Option.some_bind, Option.some.injEq] at hbody
        rw [← hbody]
        simp only [packetId, List.append_assoc]
        exact ⟨_, rfl⟩
      · rw [Option.bind_eq_bind] at hbody
        rcases Option.bind_eq_some.mp hbody with ⟨deathB, hdeath, hsome⟩
        simp only [Option.some.injEq] at hsome
        rw [← hsome]
        simp only [packetId, List.append_assoc]
        exact ⟨_, rfl⟩
    | chunkDataAndUpdateLight cx cz hm d be s b es eb sa ba =>
      simp only [packet_body, Option.bind_eq_bind, Option.bind_eq_some] at hbody
      obtain ⟨hmB, hhm, hbody⟩ := hbody
      obtain ⟨bentB, hbent, hsome⟩ := hbody
      simp only [Option.some.injEq] at hsome
      rw [← hsome]
      simp only [packetId, List.append_assoc]
      exact ⟨_, rfl⟩

theorem C4_frame_length_self_consistency_witness :
    (send .finishConfig
        = some (write_varint ((write_varint 2).length : Int) ++ write_varint 2))
    ∧ read_varint_with_nread
        (write_varint ((write_varint 2).length : Int) ++ write_varint 2)
        = some (((write_varint 2).length : Int),
            (write_varint ((write_varint 2).length : Int)).length, write_varint 2)
    ∧ ∃ payload, write_varint 2 = write_varint (packetId .finishConfig) ++ payload :=
  C4_frame_length_self_consistency .finishConfig (write_varint 2) rfl (by
    have h2 : write_varint 2 = [2] := by
      rw [write_varint]
      have ht : toU64 2 = 2 := rfl
      rw [ht]
      exact write_varint_loop_small (by norm_num)
    rw [h2]
    norm_num)

/-- C7 counterexample: the DisconnectLogin body for reason "hi" is the raw
bytes of the JSON literal with no VarInt length prefix; the claimed
length-prefixed serialization (length byte 11 before the literal) does not
match what send builds. -/
theorem C7_counterexample :
    packet_body (.disconnectLogin [104, 105])
      ≠ some (write_varint 0
          ++ write_string ([123, 116, 101, 120, 116, 58, 34]
              ++ [104, 105] ++ [34, 125])) := by
  have h0 : write_varint 0 = [0] := by
    rw [write_varint]
    have ht : toU64 0 = 0 := rfl
    rw [ht]
    exact write_varint_loop_small (by norm_num)
  have h11 : write_varint 11 = [11] := by
    rw [write_varint]
    have ht : toU64 11 = 11 := rfl
    rw [ht]
    exact write_varint_loop_small (by norm_num)
  intro h
  simp only [packet_body, write_string, h0, Option.some.injEq] at h
  rw [show (([123, 116, 101, 120, 116, 58, 34] ++ [104, 105]
      ++ [34, 125] : List Nat).length : Int) = 11 by rfl, h11] at h
  simp at h

/-- C7 amended: the DisconnectLogin body after the VarInt packet id 0x00 is
the literal ASCII bytes of the JSON text (open brace, text, colon, quote,
the unescaped reason, quote, close brace) with NO length prefix. -/
theorem C7_disconnect_login_payload :
    ∀ reason : List Nat,
      packet_body (.disconnectLogin reason)
        = some ([0] ++ ([123, 116, 101, 120, 116, 58, 34]
            ++ reason ++ [34, 125])) := by
  intro reason
  have h0 : write_varint 0 = [0] := by
    rw [write_varint]
    have ht : toU64 0 = 0 := rfl
    rw [ht]
    exact write_varint_loop_small (by norm_num)
  simp only [packet_body, h0]
